import Mathlib

/-!
Verification of the agentswarm orchestration engine against its
natural-language specification.

The definitions below are a shallow embedding of the TypeScript source:

* `AgentSwarm.MergeQueueState` and its operations embed
  `packages/orchestrator/src/merge-queue.ts` (enqueue, dequeue, the state
  effect of `mergeBranch`, `resetRetryCount`, `processQueue`);
* `AgentSwarm.closeHandlerResult` and `AgentSwarm.isHandoff` embed the
  stdout close handler of `packages/orchestrator/src/worker-pool.ts`;
* `AgentSwarm.sweepStep` embeds the control flow of
  `packages/orchestrator/src/reconciler.ts` `sweep`;
* `AgentSwarm.failingLoopTrace` embeds the error path of the planner's
  `runLoop`, and `AgentSwarm.autoRedispatches` the auto-retry decision of
  `collectCompletedHandoffs`;
* `AgentSwarm.aggregateHandoffs` embeds the subplanner's handoff
  aggregation.

Git subprocess effects are abstracted by a `MergeOutcome` oracle: the queue,
retry-counter, merged-set and statistics updates depend on the git layer only
through the success/conflicted/failed result of one merge attempt, which is
exactly the dependency-injection seam (`MergeQueueDeps.mergeBranch`) the
source uses for its own unit tests.
-/

namespace AgentSwarm

/-- Task status state machine from the orchestrator's task model. -/
inductive TaskStatus
  | pending
  | assigned
  | running
  | complete
  | failed
  | blocked
deriving DecidableEq, Repr

/-- Handoff status reported by a sandbox run. `partialStatus` renders the
source's `"partial"` literal. -/
inductive HandoffStatus
  | complete
  | partialStatus
  | failed
  | blocked
deriving DecidableEq, Repr

/-- Metrics bundle of a handoff. All counters are non-negative numbers in
the source; embedded as `Nat`. -/
structure Metrics where
  linesAdded : Nat
  linesRemoved : Nat
  filesCreated : Nat
  filesModified : Nat
  tokensUsed : Nat
  toolCallCount : Nat
  durationMs : Nat
deriving DecidableEq, Repr

/-- Handoff record (§ Handoff shape of the spec, `Handoff` in core types). -/
structure Handoff where
  taskId : String
  status : HandoffStatus
  summary : String
  diff : String
  filesChanged : List String
  concerns : List String
  suggestions : List String
  metrics : Metrics
deriving DecidableEq, Repr

/-- Task record. `retryCount` is optional in the source and uniformly read
as `task.retryCount ?? 0`, so it is embedded as a `Nat` whose missing value
is `0`. -/
structure Task where
  id : String
  description : String
  scope : List String
  acceptance : String
  branch : String
  status : TaskStatus
  createdAt : Int
  priority : Int
  retryCount : Nat
  parentId : Option String
  conflictSourceBranch : Option String
deriving DecidableEq, Repr

/-! ## Merge queue (merge-queue.ts) -/

/-- One queue entry: `{branch, priority, enqueuedAt}`. -/
structure MergeQueueEntry where
  branch : String
  priority : Int
  enqueuedAt : Int
deriving DecidableEq, Repr

/-- Merge statistics exposed by `getMergeStats`. -/
structure MergeStats where
  totalMerged : Nat
  totalSkipped : Nat
  totalFailed : Nat
  totalConflicts : Nat
deriving DecidableEq, Repr

/-- Payload passed to the registered `onConflict` callbacks. -/
structure MergeConflictInfo where
  branch : String
  conflictingFiles : List String
deriving DecidableEq, Repr

/-- Status field of a `MergeQueueResult`. -/
inductive MergeResultStatus
  | merged
  | skipped
  | failed
  | conflict
deriving DecidableEq, Repr

/-- Result returned by `mergeBranch`. The optional `conflicts` field is
embedded as a list which is empty when the source leaves it undefined. -/
structure MergeQueueResult where
  success : Bool
  status : MergeResultStatus
  branch : String
  message : String
  conflicts : List String
deriving DecidableEq, Repr

/-- Mutable state of a `MergeQueue` instance. The TS `Map<string, number>`
retry counter is always read as `retryCount.get(branch) ?? 0`, so it is
embedded as a total function with default `0` (and `Map.delete` becomes
set-to-`0`). `conflictEvents` records, in order, the payloads passed to the
registered `onConflict` callbacks, which fire synchronously in-loop. -/
structure MergeQueueState where
  queue : List MergeQueueEntry
  merged : List String
  retryCount : String → Nat
  stats : MergeStats
  maxConflictRetries : Nat
  conflictEvents : List MergeConflictInfo

/-- Fresh merge queue (constructor): empty queue, empty merged set, empty
retry map, zeroed statistics. -/
def initMergeQueue (maxConflictRetries : Nat) : MergeQueueState :=
  { queue := []
    merged := []
    retryCount := fun _ => 0
    stats := ⟨0, 0, 0, 0⟩
    maxConflictRetries := maxConflictRetries
    conflictEvents := [] }

/-- Point update of the retry-count map (`retryCount.set(branch, n)`). -/
def setRetryCount (f : String → Nat) (branch : String) (n : Nat) : String → Nat :=
  fun b => if b == branch then n else f b

/-- The sort comparator used by `enqueue`:
`a.priority !== b.priority ? a.priority - b.priority : a.enqueuedAt - b.enqueuedAt`.
`entryLE a b` holds when the comparator does not order `b` strictly before
`a`, i.e. the order a stable JS sort establishes between adjacent kept
elements. -/
def entryLE (a b : MergeQueueEntry) : Bool :=
  if a.priority ≠ b.priority then a.priority < b.priority
  else a.enqueuedAt ≤ b.enqueuedAt

/-- Stable insertion of `e` into a list processed so far: `e` goes after
every element `x` with `entryLE x e`, so elements inserted earlier stay
first on comparator ties. -/
def insertSorted (e : MergeQueueEntry) : List MergeQueueEntry → List MergeQueueEntry
  | [] => [e]
  | x :: xs => if entryLE x e then x :: insertSorted e xs else e :: x :: xs

/-- Stable sort by the `(priority, enqueuedAt)` comparator: elements are
inserted in their original order, each after all its comparator-ties.
JS `Array.prototype.sort` guarantees exactly a stable sort consistent with
the comparator, so this is its embedding. -/
def sortEntries (l : List MergeQueueEntry) : List MergeQueueEntry :=
  l.foldl (fun acc e => insertSorted e acc) []

/-- `MergeQueue.enqueue`: drop already-merged branches, drop branches already
in the queue, otherwise push and re-sort by `(priority, enqueuedAt)`. -/
def MergeQueueState.enqueue (s : MergeQueueState) (branch : String) (priority : Int)
    (now : Int) : MergeQueueState :=
  if s.merged.contains branch then s
  else if s.queue.any (fun e => e.branch == branch) then s
  else { s with
          queue := sortEntries (s.queue ++ [MergeQueueEntry.mk branch priority now]) }

/-- `MergeQueue.dequeue`: shift the head entry off the queue. -/
def MergeQueueState.dequeue (s : MergeQueueState) : Option String × MergeQueueState :=
  match s.queue with
  | [] => (none, s)
  | e :: rest => (some e.branch, { s with queue := rest })

/-- `MergeQueue.resetRetryCount`: `retryCount.delete(branch)`, i.e. the
branch reads as `0` afterwards. -/
def MergeQueueState.resetRetryCount (s : MergeQueueState) (branch : String) : MergeQueueState :=
  { s with retryCount := setRetryCount s.retryCount branch 0 }

/-- `MergeQueue.isBranchMerged`. -/
def MergeQueueState.isBranchMerged (s : MergeQueueState) (branch : String) : Bool :=
  s.merged.contains branch

/-- Abstraction of one git-level merge attempt (the result of
`deps.mergeBranch`, after the single fall-back to merge-commit the source
performs on a non-conflicting failure). -/
inductive MergeOutcome
  | success (message : String)
  | conflicted (conflictingFiles : List String)
  | failed (message : String)
deriving DecidableEq, Repr

/-- State effect and result of `MergeQueue.mergeBranch` on branch `branch`
when the git layer reports `outcome`; `now` is `deps.now()` used as the
`enqueuedAt` timestamp of a conflict-retry re-enqueue.

* success: mark merged, `totalMerged++`, return `merged` (the push of the
  mainline and the best-effort remote delete do not touch queue state);
* conflict: `totalConflicts++`; if the branch's retry count is below
  `maxConflictRetries`, re-enqueue at priority `1`, bump the retry count and
  return `skipped`, else fire the conflict callbacks with
  `{branch, conflictingFiles}` and return `conflict`;
* non-conflict failure: `totalFailed++`, return `failed`. -/
def MergeQueueState.mergeBranchStep (s : MergeQueueState) (branch : String)
    (outcome : MergeOutcome) (now : Int) : MergeQueueResult × MergeQueueState :=
  match outcome with
  | .success msg =>
    ({ success := true, status := .merged, branch := branch, message := msg, conflicts := [] },
     { s with
        merged := branch :: s.merged
        stats := { s.stats with totalMerged := s.stats.totalMerged + 1 } })
  | .conflicted files =>
    let s1 := { s with stats := { s.stats with totalConflicts := s.stats.totalConflicts + 1 } }
    let retries := s.retryCount branch
    if retries < s.maxConflictRetries then
      let s2 := s1.enqueue branch 1 now
      let s3 := { s2 with retryCount := setRetryCount s2.retryCount branch (retries + 1) }
      ({ success := false, status := .skipped, branch := branch,
         message := "Conflict retry — re-queued", conflicts := [] }, s3)
    else
      ({ success := false, status := .conflict, branch := branch,
         message := "Merge conflict", conflicts := files },
       { s1 with conflictEvents := s1.conflictEvents ++ [⟨branch, files⟩] })
  | .failed msg =>
    ({ success := false, status := .failed, branch := branch, message := msg, conflicts := [] },
     { s with stats := { s.stats with totalFailed := s.stats.totalFailed + 1 } })

/-- `MergeQueue.processQueue` / one background tick: repeatedly dequeue and
merge until the queue is empty. `outcomes k` is the git-level result of the
`k`-th merge attempt of the drain, `times k` the corresponding `deps.now()`.
Returns the log of dequeued entries paired with their merge results. `fuel`
bounds the recursion (a drain with conflict retries re-enqueues, so it is
not structurally decreasing). -/
def processQueueLog (outcomes : Nat → MergeOutcome) (times : Nat → Int) :
    Nat → Nat → MergeQueueState → List (MergeQueueEntry × MergeQueueResult) × MergeQueueState
  | 0, _, s => ([], s)
  | fuel + 1, k, s =>
    match s.queue with
    | [] => ([], s)
    | e :: rest =>
      let s1 := { s with queue := rest }
      let (r, s2) := s1.mergeBranchStep e.branch (outcomes k) (times k)
      let (log, s3) := processQueueLog outcomes times fuel (k + 1) s2
      ((e, r) :: log, s3)

/-- The retry-counter invariant: every branch's conflict retry counter is at
most `maxConflictRetries`. -/
def RetryInv (s : MergeQueueState) : Prop :=
  ∀ b : String, s.retryCount b ≤ s.maxConflictRetries

/-! ## Planner loop failure policy (planner.ts) -/

/-- `BACKOFF_BASE_MS` from planner.ts. -/
def BACKOFF_BASE_MS : Nat := 2000

/-- `BACKOFF_MAX_MS` from planner.ts. -/
def BACKOFF_MAX_MS : Nat := 30000

/-- `MAX_CONSECUTIVE_ERRORS` from planner.ts. -/
def MAX_CONSECUTIVE_ERRORS : Nat := 10

/-- The backoff computed in `runLoop`'s catch block after the increment:
`min(BACKOFF_BASE_MS * 2^(consecutiveErrors - 1), BACKOFF_MAX_MS)`. -/
def backoffMs (consecutiveErrors : Nat) : Nat :=
  min (BACKOFF_BASE_MS * 2 ^ (consecutiveErrors - 1)) BACKOFF_MAX_MS

/-- Error path of `Planner.runLoop` when every planning call throws: each
iteration increments `consecutiveErrors`, computes the backoff, aborts
(`break`) when `consecutiveErrors >= MAX_CONSECUTIVE_ERRORS` — before any
sleep — and otherwise sleeps for the backoff. Returns the list of performed
sleeps (ms) and the error count at which the loop ended; `fuel` is the
remaining iteration budget (`maxIterations` never decreases on failures, so
any fuel ≥ `MAX_CONSECUTIVE_ERRORS` is equivalent). -/
def failingLoopTrace : Nat → Nat → List Nat × Nat
  | 0, consecutiveErrors => ([], consecutiveErrors)
  | fuel + 1, consecutiveErrors =>
    let ce := consecutiveErrors + 1
    if MAX_CONSECUTIVE_ERRORS ≤ ce then ([], ce)
    else
      let rest := failingLoopTrace fuel ce
      (backoffMs ce :: rest.1, rest.2)

/-! ## Sandbox output validation (worker-pool.ts) -/

/-- JSON values as produced by `JSON.parse` on a stdout line. -/
inductive JValue
  | jnull
  | jbool (b : Bool)
  | jnum (n : Int)
  | jstr (s : String)
  | jarr (elems : List JValue)
  | jobj (fields : List (String × JValue))

/-- Property lookup on a parsed JSON object (`key in value` / `value.key`). -/
def jlookup (fields : List (String × JValue)) (key : String) : Option JValue :=
  (fields.find? (fun p => p.1 == key)).map (fun p => p.2)

/-- `typeof x === "string"`. -/
def isJsString : Option JValue → Bool
  | some (.jstr _) => true
  | _ => false

/-- `Array.isArray(x)`. -/
def isJsArray : Option JValue → Bool
  | some (.jarr _) => true
  | _ => false

/-- `typeof x === "object" && x !== null`: true for JSON objects and also
for JSON arrays (JS arrays have typeof "object"). -/
def isJsObjectNonNull : Option JValue → Bool
  | some (.jobj _) => true
  | some (.jarr _) => true
  | _ => false

/-- The `isHandoff` type guard of worker-pool.ts: the value must be a
non-null object, the five keys `taskId`, `status`, `summary`,
`filesChanged`, `metrics` must be present (`in`), and they must be string /
string / string / array / non-null object respectively. A top-level array
passes the typeof check but fails every `in` check, so only objects can
pass. No other Handoff field is inspected. -/
def isHandoff (v : JValue) : Bool :=
  match v with
  | .jobj fields =>
    (jlookup fields "taskId").isSome && (jlookup fields "status").isSome
      && (jlookup fields "summary").isSome && (jlookup fields "filesChanged").isSome
      && (jlookup fields "metrics").isSome
      && isJsString (jlookup fields "taskId") && isJsString (jlookup fields "status")
      && isJsString (jlookup fields "summary") && isJsArray (jlookup fields "filesChanged")
      && isJsObjectNonNull (jlookup fields "metrics")
  | _ => false

/-- The `close` handler of `runSandboxStreaming` (non-timeout path):
reject when there were no stdout lines, when the last line is empty
(falsy), when `JSON.parse` throws (`parseJson` returns `none`), or when the
parsed value fails `isHandoff`; otherwise resolve with the parsed handoff.
The subprocess exit code is received (`_code`) but never used. Returns
`some handoff` for resolve, `none` for reject. -/
def closeHandlerResult (parseJson : String → Option JValue) (stdoutLines : List String)
    (_code : Int) : Option JValue :=
  if stdoutLines.length == 0 then none
  else
    match stdoutLines.getLast? with
    | none => none
    | some lastLine =>
      if lastLine == "" then none
      else
        match parseJson lastLine with
        | none => none
        | some parsed => if isHandoff parsed then some parsed else none

/-- Field list of a JSON object carrying exactly the five fields
`isHandoff` checks, with no `diff`, `concerns` or `suggestions` field. -/
def handoffNoDiffFields : List (String × JValue) :=
  [("taskId", .jstr "task-001"), ("status", .jstr "complete"),
   ("summary", .jstr "done"), ("filesChanged", .jarr []),
   ("metrics", .jobj [])]

/-- The JSON object over `handoffNoDiffFields`. -/
def handoffNoDiffJson : JValue := .jobj handoffNoDiffFields

/-- A parse oracle that parses the single line `"h"` to
`handoffNoDiffJson` and fails on everything else. -/
def cexParse : String → Option JValue :=
  fun s => if s == "h" then some handoffNoDiffJson else none

/-! ## Reconciler sweep (reconciler.ts) -/

/-- Adaptive-cadence state of a `Reconciler` instance. -/
structure ReconcilerState where
  consecutiveGreenSweeps : Nat
  recentFixScopes : List String
  currentIntervalMs : Nat
  minIntervalMs : Nat
  maxIntervalMs : Nat
  fixCounter : Nat
deriving DecidableEq, Repr

/-- Reconciler constructor state: `minIntervalMs = min(60_000, intervalMs)`,
`maxIntervalMs = currentIntervalMs = intervalMs`. -/
def initReconcilerState (intervalMs : Nat) : ReconcilerState :=
  { consecutiveGreenSweeps := 0
    recentFixScopes := []
    currentIntervalMs := intervalMs
    minIntervalMs := min 60000 intervalMs
    maxIntervalMs := intervalMs
    fixCounter := 0 }

/-- `Reconciler.adjustInterval`: no-op when already at the target, else set
the current interval (and restart the timer, which carries no model state). -/
def adjustInterval (st : ReconcilerState) (targetMs : Nat) : ReconcilerState :=
  if st.currentIntervalMs = targetMs then st
  else { st with currentIntervalMs := targetMs }

/-- Raw task object parsed from the reconciler's LLM response
(`parseLLMTaskArray` output); absent fields are `none`. -/
structure RawFixTask where
  id : Option String
  description : String
  scope : Option (List String)
  acceptance : Option String
  branch : Option String
deriving DecidableEq, Repr

/-- The `SweepResult` record returned by `Reconciler.sweep`. -/
structure SweepResult where
  buildOk : Bool
  testsOk : Bool
  hasConflictMarkers : Bool
  buildOutput : String
  testOutput : String
  conflictFiles : List String
  fixTasks : List Task
deriving DecidableEq, Repr

/-- Inputs of one sweep. The three check booleans abstract the outcome of
the `tsc --noEmit`, `npm run build` and `npm test` commands (including the
"not configured" allowances computed on their output); `conflictFiles` is
the `git grep` conflict-marker hit list; the merge counts are
`getMergeStats().totalMerged` sampled at sweep start and after the checks;
`llmTasks` is the parsed fix-task array of the LLM call, `none` when the
call throws. -/
structure SweepInput where
  buildOk : Bool
  buildRunOk : Bool
  testsOk : Bool
  conflictFiles : List String
  mergeCountBefore : Nat
  mergeCountAfter : Nat
  buildOutput : String
  testOutput : String
  llmTasks : Option (List RawFixTask)

/-- JS `a || b` on an optional string: the default is used when the field
is absent or the empty string (falsy). -/
def jsOrElse (v : Option String) (d : String) : String :=
  match v with
  | some s => if s == "" then d else s
  | none => d

/-- `String.padStart(3, "0")`. -/
def padStart3 (s : String) : String :=
  if s.length < 3 then String.mk (List.replicate (3 - s.length) '0') ++ s else s

/-- The fix-task construction loop of `sweep`: skip a raw task whose
non-empty scope is wholly covered by `recentFixScopes`; otherwise bump
`fixCounter`, assign id `fix-NNN` (unless given), branch
`<prefix><id>-<slug>` (unless given), priority 1, and append the scope to
`recentFixScopes`. -/
def buildFixTasks (branchPfx : String) (slugify : String → String) (now : Int) :
    ReconcilerState → List RawFixTask → ReconcilerState × List Task
  | st, [] => (st, [])
  | st, raw :: rest =>
    let scope := raw.scope.getD []
    let allScopesCovered :=
      !scope.isEmpty && scope.all (fun f => st.recentFixScopes.contains f)
    if allScopesCovered then buildFixTasks branchPfx slugify now st rest
    else
      let fixCounter := st.fixCounter + 1
      let id := jsOrElse raw.id ("fix-" ++ padStart3 (toString fixCounter))
      let task : Task :=
        { id := id
          description := raw.description
          scope := scope
          acceptance := jsOrElse raw.acceptance "tsc --noEmit returns 0 and npm test returns 0"
          branch := jsOrElse raw.branch (branchPfx ++ id ++ "-" ++ slugify raw.description)
          status := .pending
          createdAt := now
          priority := 1
          retryCount := 0
          parentId := none
          conflictSourceBranch := none }
      let st' :=
        { st with
            fixCounter := fixCounter
            recentFixScopes :=
              scope.foldl (fun acc f => if acc.contains f then acc else acc ++ [f])
                st.recentFixScopes }
      let next := buildFixTasks branchPfx slugify now st' rest
      (next.1, task :: next.2)

/-- `Reconciler.sweep` control flow after the checks have run:

* all green: return the all-green result, bump the green streak, clear
  `recentFixScopes`, and raise the interval to `maxIntervalMs` once the
  streak reaches 3;
* otherwise, if merges landed during the sweep: discard as stale, state
  untouched;
* otherwise, if the LLM call failed: return the failing result with an
  empty `fixTasks` list, state untouched (the early `return` skips both the
  green-streak reset and `adjustInterval`);
* otherwise: cap the raw tasks at `maxFixTasks`, build fix tasks, reset the
  green streak and speed the interval down to `minIntervalMs`. -/
def sweepStep (st : ReconcilerState) (maxFixTasks : Nat) (branchPfx : String)
    (slugify : String → String) (now : Int) (inp : SweepInput) :
    SweepResult × ReconcilerState :=
  let hasConflictMarkers := !inp.conflictFiles.isEmpty
  if inp.buildOk && inp.buildRunOk && inp.testsOk && !hasConflictMarkers then
    let st1 :=
      { st with
          consecutiveGreenSweeps := st.consecutiveGreenSweeps + 1
          recentFixScopes := [] }
    let st2 :=
      if 3 ≤ st1.consecutiveGreenSweeps then adjustInterval st1 st1.maxIntervalMs else st1
    ({ buildOk := true, testsOk := true, hasConflictMarkers := false,
       buildOutput := "", testOutput := "", conflictFiles := [], fixTasks := [] }, st2)
  else if inp.mergeCountBefore < inp.mergeCountAfter then
    ({ buildOk := inp.buildOk, testsOk := inp.testsOk,
       hasConflictMarkers := hasConflictMarkers,
       buildOutput := "", testOutput := "", conflictFiles := [], fixTasks := [] }, st)
  else
    match inp.llmTasks with
    | none =>
      ({ buildOk := inp.buildOk, testsOk := inp.testsOk,
         hasConflictMarkers := hasConflictMarkers,
         buildOutput := if inp.buildOk then "" else inp.buildOutput.take 8000,
         testOutput := if inp.testsOk then "" else inp.testOutput.take 8000,
         conflictFiles := inp.conflictFiles, fixTasks := [] }, st)
    | some rawTasks =>
      let capped := rawTasks.take maxFixTasks
      let built := buildFixTasks branchPfx slugify now st capped
      let st2 := adjustInterval { built.1 with consecutiveGreenSweeps := 0 } built.1.minIntervalMs
      ({ buildOk := inp.buildOk, testsOk := inp.testsOk,
         hasConflictMarkers := hasConflictMarkers,
         buildOutput := if inp.buildOk then "" else inp.buildOutput.take 8000,
         testOutput := if inp.testsOk then "" else inp.testOutput.take 8000,
         conflictFiles := inp.conflictFiles, fixTasks := built.2 }, st2)

/-! ## Subplanner handoff aggregation (subplanner.ts) -/

/-- Zero metrics accumulator. -/
def zeroMetrics : Metrics := ⟨0, 0, 0, 0, 0, 0, 0⟩

/-- One step of the metrics loop: field-wise `+=`, except
`durationMs = Math.max`. -/
def addMetrics (m : Metrics) (h : Handoff) : Metrics :=
  { linesAdded := m.linesAdded + h.metrics.linesAdded
    linesRemoved := m.linesRemoved + h.metrics.linesRemoved
    filesCreated := m.filesCreated + h.metrics.filesCreated
    filesModified := m.filesModified + h.metrics.filesModified
    tokensUsed := m.tokensUsed + h.metrics.tokensUsed
    toolCallCount := m.toolCallCount + h.metrics.toolCallCount
    durationMs := max m.durationMs h.metrics.durationMs }

/-- The metrics loop of `aggregateHandoffs`. -/
def sumMetrics (handoffs : List Handoff) : Metrics :=
  handoffs.foldl addMetrics zeroMetrics

/-- Status literal as printed into the aggregate summary. -/
def statusText : HandoffStatus → String
  | .complete => "complete"
  | .partialStatus => "partial"
  | .failed => "failed"
  | .blocked => "blocked"

/-- `aggregateHandoffs` from subplanner.ts: status is `complete` when the
complete count equals the subtask count, else `failed` when the failed
count equals it, else `partial` when at least one child completed, else
`blocked`; files are deduplicated in first-seen order; concerns and
suggestions are tagged and concatenated; metrics are summed field-wise with
`durationMs` taken as the maximum. -/
def aggregateHandoffs (parentTask : Task) (subtasks : List Task)
    (handoffs : List Handoff) : Handoff :=
  let completedCount := (handoffs.filter (fun h => decide (h.status = .complete))).length
  let failedCount := (handoffs.filter (fun h => decide (h.status = .failed))).length
  let totalSubtasks := subtasks.length
  let status : HandoffStatus :=
    if completedCount = totalSubtasks then .complete
    else if failedCount = totalSubtasks then .failed
    else if 0 < completedCount then .partialStatus
    else .blocked
  let summaryParts := handoffs.map (fun h =>
    "[" ++ h.taskId ++ "] (" ++ statusText h.status ++ "): " ++ h.summary)
  let summary :=
    "Decomposed \"" ++ parentTask.description ++ "\" into " ++ toString totalSubtasks
      ++ " subtasks. " ++ toString completedCount ++ " complete, " ++ toString failedCount
      ++ " failed, " ++ toString (totalSubtasks - completedCount - failedCount)
      ++ " other.\n\n" ++ String.intercalate "\n" summaryParts
  let filesChanged := handoffs.foldl
    (fun acc h => h.filesChanged.foldl
      (fun a f => if a.contains f then a else a ++ [f]) acc) []
  let allConcerns := handoffs.foldl
    (fun acc h => acc ++ h.concerns.map (fun c => "[" ++ h.taskId ++ "] " ++ c)) []
  let allSuggestions := handoffs.foldl
    (fun acc h => acc ++ h.suggestions.map (fun c => "[" ++ h.taskId ++ "] " ++ c)) []
  { taskId := parentTask.id
    status := status
    summary := summary
    diff := String.intercalate "\n" ((handoffs.map (fun h => h.diff)).filter (fun d => !(d == "")))
    filesChanged := filesChanged
    concerns := allConcerns
    suggestions := allSuggestions
    metrics := sumMetrics handoffs }

/-- A minimal task record used in concrete instances. -/
def mkSimpleTask (id : String) : Task :=
  { id := id, description := "", scope := [], acceptance := "", branch := ""
    status := .pending, createdAt := 0, priority := 5, retryCount := 0
    parentId := none, conflictSourceBranch := none }

/-- A handoff with the given status and zero metrics, used in concrete
instances. -/
def mkStatusHandoff (id : String) (st : HandoffStatus) : Handoff :=
  { taskId := id, status := st, summary := "", diff := "", filesChanged := []
    concerns := [], suggestions := [], metrics := zeroMetrics }

/-! ## Planner dispatch and auto-retry (planner.ts) -/

/-- The spec's wording for C8: a status strictly beyond pending/assigned. -/
def beyondPendingAssigned (s : TaskStatus) : Bool :=
  match s with
  | .pending => false
  | .assigned => false
  | _ => true

/-- The post-limiter re-check of `Planner.dispatchSingleTask`: after
acquiring a slot, `getById` is consulted and the dispatch is skipped when
the task exists and its status is not `pending`. A task missing from the
queue proceeds. -/
def postLimiterSkips (current : Option Task) : Bool :=
  match current with
  | some t => decide (t.status ≠ .pending)
  | none => false

/-- Dispatcher-side state relevant to the re-check. The semaphore
(`ConcurrencyLimiter` in shared.ts, not under src/) is modelled from the
spec as a bounded counting semaphore: `release` frees one held slot. -/
structure DispatchGate where
  limiterActive : Nat
  activeTasks : List String
deriving DecidableEq, Repr

/-- The skip path of `dispatchSingleTask`: when the re-check fires, the
slot is released and the task is dropped from `activeTasks`; otherwise the
dispatch proceeds with the gate untouched. -/
def postLimiterCheck (g : DispatchGate) (taskId : String) (current : Option Task) :
    Bool × DispatchGate :=
  if postLimiterSkips current then
    (true,
      { limiterActive := g.limiterActive - 1
        activeTasks := g.activeTasks.filter (fun i => !(i == taskId)) })
  else (false, g)

/-- `MAX_TASK_RETRIES` from planner.ts. -/
def MAX_TASK_RETRIES : Nat := 1

/-- The auto-retry guard of `Planner.collectCompletedHandoffs`: the handoff
is failed or blocked and `(task.retryCount ?? 0) < MAX_TASK_RETRIES`. -/
def autoRetryGuard (handoffStatus : HandoffStatus) (retryCount : Nat) : Bool :=
  (decide (handoffStatus = .failed) || decide (handoffStatus = .blocked))
    && decide (retryCount < MAX_TASK_RETRIES)

/-- Modelled from the spec: the TaskQueue implementation (task-queue.ts) is
not under src/. §4.1 specifies `retry(id)`: failed→pending; increments
retryCount; fails when retryCount ≥ the queue's configured max. Returns the
updated task on success, `none` when the retry is refused. -/
def retryTask (queueMaxRetries : Nat) (t : Task) : Option Task :=
  if t.status = .failed ∧ t.retryCount < queueMaxRetries then
    some { t with status := .pending, retryCount := t.retryCount + 1 }
  else none

/-- Number of automatic re-dispatches the planner performs for one task
along a run in which every dispatch of that task ends in the given terminal
handoff statuses, in order. Each collected failure re-dispatches iff the
guard passes and `retryTask` succeeds; a task that is not re-dispatched
produces no further handoffs, and a re-dispatched task is failed again
(`failTask`) before its next handoff is collected. -/
def autoRedispatches (queueMaxRetries : Nat) (t : Task) : List HandoffStatus → Nat
  | [] => 0
  | h :: rest =>
    if autoRetryGuard h t.retryCount then
      match retryTask queueMaxRetries t with
      | some t' =>
        1 + autoRedispatches queueMaxRetries { t' with status := .failed } rest
      | none => 0
    else 0

/-! ## Concrete drain instance for the merge-queue ordering claim -/

/-- Two same-priority branches, `a` enqueued before `c`. -/
def cexDrainState : MergeQueueState :=
  { queue := [⟨"a", 5, 10⟩, ⟨"c", 5, 20⟩]
    merged := []
    retryCount := fun _ => 0
    stats := ⟨0, 0, 0, 0⟩
    maxConflictRetries := 2
    conflictEvents := [] }

/-- First merge attempt conflicts, the rest succeed. -/
def cexDrainOutcomes : Nat → MergeOutcome :=
  fun k => if k == 0 then .conflicted ["f.ts"] else .success "ok"

/-- Clock for the drain instance. -/
def cexDrainTimes : Nat → Int := fun k => 100 + k

/-- An all-success outcome oracle. -/
def cexSuccOutcomes : Nat → MergeOutcome := fun _ => .success "ok"

/-- A task sitting in status `assigned`. -/
def cexAssignedTask : Task := { mkSimpleTask "t1" with status := .assigned }

/-- A sweep whose `tsc` check failed and whose LLM call then threw. -/
def cexLLMFailInput : SweepInput :=
  { buildOk := false, buildRunOk := true, testsOk := true, conflictFiles := []
    mergeCountBefore := 0, mergeCountAfter := 0
    buildOutput := "error TS2345", testOutput := "", llmTasks := none }

/-- An all-green sweep input. -/
def cexGreenInput : SweepInput :=
  { buildOk := true, buildRunOk := true, testsOk := true, conflictFiles := []
    mergeCountBefore := 0, mergeCountAfter := 0
    buildOutput := "", testOutput := "", llmTasks := some [] }

/-- A reconciler two green sweeps into a streak, running at its floor
interval with a stale fix scope. -/
def cexGreenStreakState : ReconcilerState :=
  { consecutiveGreenSweeps := 2, recentFixScopes := ["x.ts"]
    currentIntervalMs := 60000, minIntervalMs := 60000
    maxIntervalMs := 300000, fixCounter := 3 }

theorem setRetryCount_le (f : String → Nat) (b b' : String) (n m : Nat)
    (hf : f b' ≤ m) (hn : n ≤ m) : setRetryCount f b n b' ≤ m := by
  unfold setRetryCount
  split <;> assumption

theorem setRetryCount_self (f : String → Nat) (b : String) (n : Nat) :
    setRetryCount f b n b = n := by
  simp [setRetryCount]

theorem entryLE_iff (a b : MergeQueueEntry) :
    entryLE a b = true ↔
      (a.priority < b.priority ∨ (a.priority = b.priority ∧ a.enqueuedAt ≤ b.enqueuedAt)) := by
  unfold entryLE
  split <;> rename_i h <;> simp only [decide_eq_true_eq] <;> constructor
  · exact fun hlt => Or.inl hlt
  · rintro (hlt | ⟨heq, _⟩)
    · exact hlt
    · exact absurd heq h
  · intro hle
    rw [not_not] at h
    exact Or.inr ⟨h, hle⟩
  · rw [not_not] at h
    rintro (hlt | ⟨_, hle⟩)
    · omega
    · exact hle

theorem entryLE_total (a b : MergeQueueEntry) :
    entryLE a b = true ∨ entryLE b a = true := by
  rw [entryLE_iff, entryLE_iff]
  omega

theorem entryLE_trans (a b c : MergeQueueEntry)
    (hab : entryLE a b = true) (hbc : entryLE b c = true) : entryLE a c = true := by
  rw [entryLE_iff] at hab hbc ⊢
  omega

theorem mem_insertSorted (e y : MergeQueueEntry) (l : List MergeQueueEntry) :
    y ∈ insertSorted e l ↔ y = e ∨ y ∈ l := by
  induction l with
  | nil => simp [insertSorted]
  | cons x xs ih =>
    unfold insertSorted
    split
    · simp only [List.mem_cons, ih]
      tauto
    · simp only [List.mem_cons]

theorem insertSorted_pairwise (e : MergeQueueEntry) (l : List MergeQueueEntry)
    (h : l.Pairwise (fun a b => entryLE a b = true)) :
    (insertSorted e l).Pairwise (fun a b => entryLE a b = true) := by
  induction l with
  | nil => simp [insertSorted]
  | cons x xs ih =>
    rw [List.pairwise_cons] at h
    obtain ⟨hx, hxs⟩ := h
    unfold insertSorted
    split
    · rename_i hxe
      rw [List.pairwise_cons]
      refine ⟨?_, ih hxs⟩
      intro y hy
      rcases (mem_insertSorted e y xs).mp hy with hye | hyl
      · subst hye
        exact hxe
      · exact hx y hyl
    · rename_i hxe
      have hex : entryLE e x = true := by
        rcases entryLE_total e x with h1 | h1
        · exact h1
        · exact absurd h1 hxe
      rw [List.pairwise_cons]
      constructor
      · intro y hy
        rcases List.mem_cons.mp hy with h2 | h2
        · subst h2
          exact hex
        · exact entryLE_trans e x y hex (hx y h2)
      · exact List.pairwise_cons.mpr ⟨hx, hxs⟩

theorem mem_foldl_insertSorted (l : List MergeQueueEntry) (acc : List MergeQueueEntry)
    (y : MergeQueueEntry) :
    y ∈ l.foldl (fun acc e => insertSorted e acc) acc ↔ y ∈ acc ∨ y ∈ l := by
  induction l generalizing acc with
  | nil => simp
  | cons x xs ih =>
    rw [List.foldl_cons, ih, mem_insertSorted]
    simp only [List.mem_cons]
    tauto

theorem mem_sortEntries (l : List MergeQueueEntry) (y : MergeQueueEntry) :
    y ∈ sortEntries l ↔ y ∈ l := by
  unfold sortEntries
  rw [mem_foldl_insertSorted]
  simp

theorem sortEntries_pairwise_aux (l acc : List MergeQueueEntry)
    (h : acc.Pairwise (fun a b => entryLE a b = true)) :
    (l.foldl (fun acc e => insertSorted e acc) acc).Pairwise
      (fun a b => entryLE a b = true) := by
  induction l generalizing acc with
  | nil => exact h
  | cons x xs ih =>
    rw [List.foldl_cons]
    exact ih _ (insertSorted_pairwise x acc h)

theorem sortEntries_pairwise (l : List MergeQueueEntry) :
    (sortEntries l).Pairwise (fun a b => entryLE a b = true) :=
  sortEntries_pairwise_aux l [] (by simp)

theorem enqueue_retryCount (s : MergeQueueState) (b : String) (p n : Int) :
    (s.enqueue b p n).retryCount = s.retryCount := by
  unfold MergeQueueState.enqueue
  split
  · rfl
  split
  · rfl
  · rfl

theorem enqueue_max (s : MergeQueueState) (b : String) (p n : Int) :
    (s.enqueue b p n).maxConflictRetries = s.maxConflictRetries := by
  unfold MergeQueueState.enqueue
  split
  · rfl
  split
  · rfl
  · rfl

theorem enqueue_eq_of_inQueue (s : MergeQueueState) (b : String) (p n : Int)
    (h : s.queue.any (fun e => e.branch == b) = true) :
    s.enqueue b p n = s := by
  unfold MergeQueueState.enqueue
  split
  · rfl
  · simp [h]

theorem enqueue_eq_of_merged (s : MergeQueueState) (b : String) (p n : Int)
    (h : s.merged.contains b = true) :
    s.enqueue b p n = s := by
  unfold MergeQueueState.enqueue
  split
  · rfl
  · rename_i hc
    exact absurd h hc

theorem enqueue_mem (s : MergeQueueState) (b : String) (p n : Int)
    (hm : s.merged.contains b = false)
    (hq : s.queue.any (fun e => e.branch == b) = false) :
    MergeQueueEntry.mk b p n ∈ (s.enqueue b p n).queue := by
  simp only [MergeQueueState.enqueue, hm, hq, Bool.false_eq_true, if_false]
  rw [mem_sortEntries]
  simp

theorem dequeue_retryCount (s : MergeQueueState) :
    s.dequeue.2.retryCount = s.retryCount := by
  unfold MergeQueueState.dequeue
  split <;> rfl

theorem dequeue_max (s : MergeQueueState) :
    s.dequeue.2.maxConflictRetries = s.maxConflictRetries := by
  unfold MergeQueueState.dequeue
  split <;> rfl

/-- C1: the conflict retry counter never exceeds `maxConflictRetries` (the
invariant holds for a fresh queue and is preserved by enqueue, dequeue,
`resetRetryCount` and any merge attempt); while the counter of branch `b` is
below the cap, a conflicting merge attempt on `b` returns status `skipped`,
increments the counter and re-enqueues `b` at priority 1; when the counter
has reached the cap, a conflicting attempt fires the conflict callbacks with
`{branch, conflictingFiles}`, returns status `conflict`, and leaves the
queue and the counter unchanged (no re-enqueue). -/
theorem C1_conflict_retry_cap (s : MergeQueueState) (b : String) (files : List String)
    (p now : Int) (o : MergeOutcome) (hInv : RetryInv s) :
    RetryInv (initMergeQueue s.maxConflictRetries)
    ∧ RetryInv (s.enqueue b p now)
    ∧ RetryInv s.dequeue.2
    ∧ RetryInv (s.resetRetryCount b)
    ∧ RetryInv (s.mergeBranchStep b o now).2
    ∧ (s.retryCount b < s.maxConflictRetries →
        (s.mergeBranchStep b (.conflicted files) now).1.status = .skipped
        ∧ (s.mergeBranchStep b (.conflicted files) now).2.retryCount b = s.retryCount b + 1
        ∧ (s.merged.contains b = false →
            s.queue.any (fun e => e.branch == b) = false →
              MergeQueueEntry.mk b 1 now
                ∈ (s.mergeBranchStep b (.conflicted files) now).2.queue))
    ∧ (s.retryCount b = s.maxConflictRetries →
        (s.mergeBranchStep b (.conflicted files) now).1.status = .conflict
        ∧ (s.mergeBranchStep b (.conflicted files) now).2.queue = s.queue
        ∧ (s.mergeBranchStep b (.conflicted files) now).2.conflictEvents
            = s.conflictEvents ++ [MergeConflictInfo.mk b files]
        ∧ (s.mergeBranchStep b (.conflicted files) now).2.retryCount b = s.retryCount b) := by
  refine ⟨fun _ => Nat.zero_le _, ?_, ?_, ?_, ?_, ?_, ?_⟩
  · intro b'
    rw [enqueue_retryCount, enqueue_max]
    exact hInv b'
  · intro b'
    rw [dequeue_retryCount, dequeue_max]
    exact hInv b'
  · intro b'
    exact setRetryCount_le _ _ _ _ _ (hInv b') (Nat.zero_le _)
  · cases o with
    | success msg => exact hInv
    | failed msg => exact hInv
    | conflicted files' =>
      intro b'
      unfold MergeQueueState.mergeBranchStep
      dsimp only
      split
      · rename_i hlt
        dsimp only
        rw [enqueue_max]
        rw [enqueue_retryCount]
        exact setRetryCount_le _ _ _ _ _ (hInv b') hlt
      · exact hInv b'
  · intro hlt
    refine ⟨?_, ?_, ?_⟩
    · simp only [MergeQueueState.mergeBranchStep, hlt, if_true]
    · simp only [MergeQueueState.mergeBranchStep, hlt, if_true]
      rw [enqueue_retryCount]
      exact setRetryCount_self _ _ _
    · intro hm hq
      simp only [MergeQueueState.mergeBranchStep, hlt, if_true]
      exact enqueue_mem _ b 1 now hm hq
  · intro heq
    have hnlt : ¬ s.retryCount b < s.maxConflictRetries := by omega
    refine ⟨?_, ?_, ?_, ?_⟩ <;>
      simp only [MergeQueueState.mergeBranchStep, hnlt, if_false]

/-- Witness for C1 on a fresh queue with cap 2: a conflicting attempt on a
branch with counter 0 is skipped, re-queued at priority 1, and the counter
becomes 1. -/
theorem C1_conflict_retry_cap_witness :
    ((initMergeQueue 2).mergeBranchStep "w" (.conflicted ["a.ts"]) 5).1.status = .skipped
    ∧ ((initMergeQueue 2).mergeBranchStep "w" (.conflicted ["a.ts"]) 5).2.retryCount "w" = 1
    ∧ MergeQueueEntry.mk "w" 1 5
        ∈ ((initMergeQueue 2).mergeBranchStep "w" (.conflicted ["a.ts"]) 5).2.queue := by
  have h := C1_conflict_retry_cap (initMergeQueue 2) "w" ["a.ts"] 1 5 (.success "m")
      (fun _ => Nat.zero_le _)
  have h6 := h.2.2.2.2.2.1 (by decide)
  exact ⟨h6.1, h6.2.1, h6.2.2 (by decide) (by decide)⟩

/-- C2: an `enqueue(b, p)` while `b` is already in the queue leaves the
whole queue state unchanged for every priority (first admission wins), and
after a successful merge of `b` the queue reports `isBranchMerged(b) = true`
and every subsequent `enqueue(b, p)` leaves the state unchanged, so `b` is
never re-admitted. -/
theorem C2_first_admit_and_no_readmission (s : MergeQueueState) (b : String)
    (now : Int) (msg : String) :
    (s.queue.any (fun e => e.branch == b) = true →
        ∀ p' now', s.enqueue b p' now' = s)
    ∧ (s.mergeBranchStep b (.success msg) now).2.isBranchMerged b = true
    ∧ (∀ p' now',
        (s.mergeBranchStep b (.success msg) now).2.enqueue b p' now'
          = (s.mergeBranchStep b (.success msg) now).2) := by
  refine ⟨fun h p' now' => enqueue_eq_of_inQueue s b p' now' h, ?_, fun p' now' => ?_⟩
  · simp [MergeQueueState.mergeBranchStep, MergeQueueState.isBranchMerged]
  · apply enqueue_eq_of_merged
    simp [MergeQueueState.mergeBranchStep, MergeQueueState.isBranchMerged]

/-- Witness for C2: with branch `"w"` already queued, a second enqueue at a
different priority changes nothing, and after a successful merge the branch
is marked merged. -/
theorem C2_first_admit_and_no_readmission_witness :
    ((initMergeQueue 2).enqueue "w" 5 1).enqueue "w" 2 9 = (initMergeQueue 2).enqueue "w" 5 1
    ∧ (((initMergeQueue 2).enqueue "w" 5 1).mergeBranchStep "w"
        (.success "ok") 7).2.isBranchMerged "w" = true := by
  have h := C2_first_admit_and_no_readmission ((initMergeQueue 2).enqueue "w" 5 1) "w" 7 "ok"
  refine ⟨h.1 ?_ 2 9, h.2.1⟩
  show (((initMergeQueue 2).enqueue "w" 5 1).queue.any fun e => e.branch == "w") = true
  rfl

/-- C3 counterexample: with every planning call failing, the loop does not
perform the ten waits 2, 4, 8, 16, 30, 30, 30, 30, 30, 30 seconds the claim
states — the tenth consecutive failure hits the abort check before the
sleep, so only nine waits happen. -/
theorem C3_backoff_counterexample :
    (failingLoopTrace 100 0).1
      ≠ [2000, 4000, 8000, 16000, 30000, 30000, 30000, 30000, 30000, 30000] := by
  decide

/-- C3 amended: with every planning call failing, the planner sleeps
2, 4, 8, 16, 30, 30, 30, 30, 30 seconds between the ten consecutive failed
attempts (backoff doubling from 2 s, capped at 30 s) and aborts at the
tenth consecutive failure without a further wait — for any remaining
iteration budget. -/
theorem C3_backoff_amended (k : Nat) :
    failingLoopTrace (k + MAX_CONSECUTIVE_ERRORS) 0
      = ([2000, 4000, 8000, 16000, 30000, 30000, 30000, 30000, 30000],
         MAX_CONSECUTIVE_ERRORS) := by
  rfl

theorem isSome_of_not_none_pred (o : Option JValue) (p : Option JValue → Bool)
    (hp : p none = false) (h : p o = true) : o.isSome = true := by
  cases o with
  | none =>
    rw [hp] at h
    exact absurd h (by simp)
  | some v => rfl

/-- C4 counterexample: the last-line validation does not require all
Handoff fields — a JSON object with only `taskId`, `status`, `summary`,
`filesChanged` and `metrics` (no `diff`, `concerns` or `suggestions`)
passes `isHandoff`, and the dispatch resolves with it. -/
theorem C4_required_fields_counterexample :
    isHandoff handoffNoDiffJson = true
    ∧ jlookup handoffNoDiffFields "diff" = none
    ∧ jlookup handoffNoDiffFields "concerns" = none
    ∧ jlookup handoffNoDiffFields "suggestions" = none
    ∧ closeHandlerResult (fun _ => some handoffNoDiffJson) ["h"] 0
        = some handoffNoDiffJson := by
  exact ⟨rfl, rfl, rfl, rfl, rfl⟩

/-- C4 amended: a sandbox run with no stdout lines fails; one whose last
line does not parse, or parses to a value failing the `isHandoff` shape
check, fails; a last line parsing to a value that passes the shape check
resolves with it, for every exit code; and an object value passes the
shape check iff its `taskId`, `status` and `summary` are strings, its
`filesChanged` is an array and its `metrics` a non-null object — the
remaining Handoff fields (`diff`, `concerns`, `suggestions`, the metrics
numbers) are not validated. Top-level non-objects never pass. -/
theorem C4_dispatch_validation_amended (parse : String → Option JValue)
    (lines : List String) (c c' : Int) (last : String) (v : JValue) :
    closeHandlerResult parse [] c = none
    ∧ (lines.getLast? = some last → parse last = none →
        closeHandlerResult parse lines c = none)
    ∧ (lines.getLast? = some last → ∀ w, parse last = some w → isHandoff w = false →
        closeHandlerResult parse lines c = none)
    ∧ (lines.getLast? = some last → last ≠ "" → parse last = some v →
        isHandoff v = true →
          closeHandlerResult parse lines c = some v
          ∧ closeHandlerResult parse lines c = closeHandlerResult parse lines c')
    ∧ (∀ fields, isHandoff (.jobj fields) = true ↔
        (isJsString (jlookup fields "taskId") = true
          ∧ isJsString (jlookup fields "status") = true
          ∧ isJsString (jlookup fields "summary") = true
          ∧ isJsArray (jlookup fields "filesChanged") = true
          ∧ isJsObjectNonNull (jlookup fields "metrics") = true))
    ∧ (∀ elems, isHandoff (.jarr elems) = false)
    ∧ isHandoff .jnull = false := by
  refine ⟨rfl, ?_, ?_, ?_, ?_, fun _ => rfl, rfl⟩
  · intro hlast hparse
    cases lines with
    | nil => simp at hlast
    | cons a as => simp [closeHandlerResult, hlast, hparse]
  · intro hlast w hparse hw
    cases lines with
    | nil => simp at hlast
    | cons a as => simp [closeHandlerResult, hlast, hparse, hw]
  · intro hlast h0 hparse hv
    cases lines with
    | nil => simp at hlast
    | cons a as => simp [closeHandlerResult, hlast, hparse, hv, h0]
  · intro fields
    unfold isHandoff
    simp only [Bool.and_eq_true]
    constructor
    · intro h
      tauto
    · rintro ⟨hB1, hB2, hB3, hB4, hB5⟩
      have hA1 := isSome_of_not_none_pred _ isJsString rfl hB1
      have hA2 := isSome_of_not_none_pred _ isJsString rfl hB2
      have hA3 := isSome_of_not_none_pred _ isJsString rfl hB3
      have hA4 := isSome_of_not_none_pred _ isJsArray rfl hB4
      have hA5 := isSome_of_not_none_pred _ isJsObjectNonNull rfl hB5
      tauto

/-- Witness for C4: the oracle parse of the single line `"h"` yields the
five-field object, which is accepted, while an empty stdout is rejected. -/
theorem C4_dispatch_validation_amended_witness :
    closeHandlerResult cexParse ["h"] 0 = some handoffNoDiffJson
    ∧ closeHandlerResult cexParse ["h"] 0 = closeHandlerResult cexParse ["h"] 7
    ∧ closeHandlerResult cexParse [] 0 = none := by
  have h := C4_dispatch_validation_amended cexParse ["h"] 0 7 "h" handoffNoDiffJson
  have h4 := h.2.2.2.1 rfl (by decide) rfl rfl
  exact ⟨h4.1, h4.2, h.1⟩

theorem adjustInterval_current (st : ReconcilerState) (t : Nat) :
    (adjustInterval st t).currentIntervalMs = t := by
  unfold adjustInterval
  split
  · rename_i h
    exact h
  · rfl

theorem adjustInterval_green (st : ReconcilerState) (t : Nat) :
    (adjustInterval st t).consecutiveGreenSweeps = st.consecutiveGreenSweeps := by
  unfold adjustInterval
  split <;> rfl

theorem adjustInterval_scopes (st : ReconcilerState) (t : Nat) :
    (adjustInterval st t).recentFixScopes = st.recentFixScopes := by
  unfold adjustInterval
  split <;> rfl

theorem buildFixTasks_min (pfx : String) (slugify : String → String) (now : Int) :
    ∀ (raws : List RawFixTask) (st : ReconcilerState),
      (buildFixTasks pfx slugify now st raws).1.minIntervalMs = st.minIntervalMs := by
  intro raws
  induction raws with
  | nil =>
    intro st
    rfl
  | cons raw rest ih =>
    intro st
    unfold buildFixTasks
    dsimp only
    split
    · exact ih st
    · exact ih _

theorem sweepStep_green_eq (st : ReconcilerState) (maxFix : Nat) (pfx : String)
    (slugify : String → String) (now : Int) (inp : SweepInput)
    (hcond : (inp.buildOk && inp.buildRunOk && inp.testsOk
      && !(!inp.conflictFiles.isEmpty)) = true) :
    sweepStep st maxFix pfx slugify now inp
      = ({ buildOk := true, testsOk := true, hasConflictMarkers := false,
           buildOutput := "", testOutput := "", conflictFiles := [], fixTasks := [] },
         if 3 ≤ st.consecutiveGreenSweeps + 1 then
           adjustInterval
             { st with consecutiveGreenSweeps := st.consecutiveGreenSweeps + 1,
                       recentFixScopes := [] } st.maxIntervalMs
         else
           { st with consecutiveGreenSweeps := st.consecutiveGreenSweeps + 1,
                     recentFixScopes := [] }) := by
  unfold sweepStep
  dsimp only
  rw [hcond]
  rfl

theorem sweepStep_llmFail_eq (st : ReconcilerState) (maxFix : Nat) (pfx : String)
    (slugify : String → String) (now : Int) (inp : SweepInput)
    (hcond : (inp.buildOk && inp.buildRunOk && inp.testsOk
      && !(!inp.conflictFiles.isEmpty)) = false)
    (hstale : ¬ inp.mergeCountBefore < inp.mergeCountAfter)
    (hllm : inp.llmTasks = none) :
    sweepStep st maxFix pfx slugify now inp
      = ({ buildOk := inp.buildOk, testsOk := inp.testsOk,
           hasConflictMarkers := !inp.conflictFiles.isEmpty,
           buildOutput := if inp.buildOk then "" else inp.buildOutput.take 8000,
           testOutput := if inp.testsOk then "" else inp.testOutput.take 8000,
           conflictFiles := inp.conflictFiles, fixTasks := [] }, st) := by
  unfold sweepStep
  dsimp only
  rw [hcond, hllm]
  simp [hstale]

theorem sweepStep_llmSome_state (st : ReconcilerState) (maxFix : Nat) (pfx : String)
    (slugify : String → String) (now : Int) (inp : SweepInput) (ts : List RawFixTask)
    (hcond : (inp.buildOk && inp.buildRunOk && inp.testsOk
      && !(!inp.conflictFiles.isEmpty)) = false)
    (hstale : ¬ inp.mergeCountBefore < inp.mergeCountAfter)
    (hllm : inp.llmTasks = some ts) :
    (sweepStep st maxFix pfx slugify now inp).2
      = adjustInterval
          { (buildFixTasks pfx slugify now st (ts.take maxFix)).1 with
              consecutiveGreenSweeps := 0 }
          (buildFixTasks pfx slugify now st (ts.take maxFix)).1.minIntervalMs := by
  unfold sweepStep
  dsimp only
  rw [hcond, hllm]
  simp [hstale]

/-- C5: a sweep in which all checks pass and no conflict markers are found
returns the all-green result (`buildOk` and `testsOk` true, no conflict
markers, no fix tasks), increments the consecutive-green-sweep counter,
clears the recent-fix-scopes set, and once the streak reaches three or more
the sweep interval is raised back to its ceiling `maxIntervalMs` (below the
threshold the interval is untouched). -/
theorem C5_green_sweep (st : ReconcilerState) (maxFix : Nat) (pfx : String)
    (slugify : String → String) (now : Int) (inp : SweepInput)
    (hb : inp.buildOk = true) (hbr : inp.buildRunOk = true) (ht : inp.testsOk = true)
    (hcf : inp.conflictFiles = []) :
    (sweepStep st maxFix pfx slugify now inp).1
      = { buildOk := true, testsOk := true, hasConflictMarkers := false,
          buildOutput := "", testOutput := "", conflictFiles := [], fixTasks := [] }
    ∧ (sweepStep st maxFix pfx slugify now inp).2.consecutiveGreenSweeps
        = st.consecutiveGreenSweeps + 1
    ∧ (sweepStep st maxFix pfx slugify now inp).2.recentFixScopes = []
    ∧ (3 ≤ st.consecutiveGreenSweeps + 1 →
        (sweepStep st maxFix pfx slugify now inp).2.currentIntervalMs = st.maxIntervalMs)
    ∧ (st.consecutiveGreenSweeps + 1 < 3 →
        (sweepStep st maxFix pfx slugify now inp).2.currentIntervalMs
          = st.currentIntervalMs) := by
  have hcond : (inp.buildOk && inp.buildRunOk && inp.testsOk
      && !(!inp.conflictFiles.isEmpty)) = true := by
    rw [hb, hbr, ht, hcf]
    rfl
  rw [sweepStep_green_eq st maxFix pfx slugify now inp hcond]
  refine ⟨rfl, ?_, ?_, ?_, ?_⟩
  · dsimp only
    split
    · rw [adjustInterval_green]
    · rfl
  · dsimp only
    split
    · rw [adjustInterval_scopes]
    · rfl
  · intro h3
    dsimp only
    rw [if_pos h3, adjustInterval_current]
  · intro h3
    dsimp only
    rw [if_neg (by omega)]

/-- Witness for C5: a reconciler two sweeps into a green streak sees its
third green sweep clear the fix scopes and restore the ceiling interval. -/
theorem C5_green_sweep_witness :
    (sweepStep cexGreenStreakState 5 "worker/" id 0 cexGreenInput).2.consecutiveGreenSweeps = 3
    ∧ (sweepStep cexGreenStreakState 5 "worker/" id 0 cexGreenInput).2.recentFixScopes = []
    ∧ (sweepStep cexGreenStreakState 5 "worker/" id 0 cexGreenInput).2.currentIntervalMs
        = 300000 := by
  have h := C5_green_sweep cexGreenStreakState 5 "worker/" id 0 cexGreenInput rfl rfl rfl rfl
  exact ⟨h.2.1, h.2.2.1, h.2.2.2.1 (by decide)⟩

/-- C6 counterexample: on a failing sweep whose LLM call throws, the sweep
returns no fix tasks but the interval is NOT reduced to its floor — a
reconciler configured at 300 s keeps `currentIntervalMs = 300000` even
though its floor is 60000, because the early return skips
`adjustInterval`. -/
theorem C6_llm_failure_counterexample :
    (sweepStep (initReconcilerState 300000) 5 "worker/" id 0 cexLLMFailInput).1.fixTasks = []
    ∧ (sweepStep (initReconcilerState 300000) 5 "worker/" id 0
        cexLLMFailInput).2.currentIntervalMs = 300000
    ∧ (initReconcilerState 300000).minIntervalMs = 60000
    ∧ (300000 : Nat) ≠ 60000 := by
  exact ⟨rfl, rfl, rfl, by decide⟩

/-- C6 amended: when checks fail (and the results are not stale) and the
LLM call for fix tasks then fails, the sweep is abandoned: it returns an
empty `fixTasks` list and leaves the reconciler state — in particular the
sweep interval and the green streak — completely unchanged, to be retried
next cycle. The cadence tightens to the floor `minIntervalMs` (which the
constructor sets to `min(60_000, intervalMs)`) only when the LLM call
succeeds on a failing sweep. -/
theorem C6_llm_failure_amended (st : ReconcilerState) (maxFix : Nat) (pfx : String)
    (slugify : String → String) (now : Int) (inp : SweepInput)
    (hcond : (inp.buildOk && inp.buildRunOk && inp.testsOk
      && !(!inp.conflictFiles.isEmpty)) = false)
    (hstale : ¬ inp.mergeCountBefore < inp.mergeCountAfter) :
    (inp.llmTasks = none →
        (sweepStep st maxFix pfx slugify now inp).1.fixTasks = []
        ∧ (sweepStep st maxFix pfx slugify now inp).2 = st)
    ∧ (∀ ts, inp.llmTasks = some ts →
        (sweepStep st maxFix pfx slugify now inp).2.currentIntervalMs = st.minIntervalMs
        ∧ (sweepStep st maxFix pfx slugify now inp).2.consecutiveGreenSweeps = 0)
    ∧ (∀ intervalMs, (initReconcilerState intervalMs).minIntervalMs
        = min 60000 intervalMs) := by
  refine ⟨?_, ?_, fun _ => rfl⟩
  · intro hllm
    rw [sweepStep_llmFail_eq st maxFix pfx slugify now inp hcond hstale hllm]
    exact ⟨rfl, rfl⟩
  · intro ts hllm
    rw [sweepStep_llmSome_state st maxFix pfx slugify now inp ts hcond hstale hllm]
    constructor
    · rw [adjustInterval_current]
      exact buildFixTasks_min pfx slugify now (ts.take maxFix) st
    · rw [adjustInterval_green]

/-- Witness for C6 (amended): the concrete failing sweep with a thrown LLM
call returns no fix tasks and leaves the state untouched. -/
theorem C6_llm_failure_amended_witness :
    (sweepStep (initReconcilerState 300000) 5 "worker/" id 0 cexLLMFailInput).1.fixTasks = []
    ∧ (sweepStep (initReconcilerState 300000) 5 "worker/" id 0 cexLLMFailInput).2
        = initReconcilerState 300000 := by
  have h := C6_llm_failure_amended (initReconcilerState 300000) 5 "worker/" id 0
    cexLLMFailInput rfl (by decide)
  exact h.1 rfl

theorem aggregateHandoffs_status (p : Task) (s : List Task) (hs : List Handoff) :
    (aggregateHandoffs p s hs).status
      = (if (hs.filter (fun h => decide (h.status = .complete))).length = s.length then
           HandoffStatus.complete
         else if (hs.filter (fun h => decide (h.status = .failed))).length = s.length then
           HandoffStatus.failed
         else if 0 < (hs.filter (fun h => decide (h.status = .complete))).length then
           HandoffStatus.partialStatus
         else HandoffStatus.blocked) := rfl

theorem aggregateHandoffs_metrics (p : Task) (s : List Task) (hs : List Handoff) :
    (aggregateHandoffs p s hs).metrics = sumMetrics hs := rfl

theorem foldl_addMetrics_eq (l : List Handoff) :
    ∀ m : Metrics, l.foldl addMetrics m
      = { linesAdded := m.linesAdded + (l.map (fun h => h.metrics.linesAdded)).sum
          linesRemoved := m.linesRemoved + (l.map (fun h => h.metrics.linesRemoved)).sum
          filesCreated := m.filesCreated + (l.map (fun h => h.metrics.filesCreated)).sum
          filesModified := m.filesModified + (l.map (fun h => h.metrics.filesModified)).sum
          tokensUsed := m.tokensUsed + (l.map (fun h => h.metrics.tokensUsed)).sum
          toolCallCount := m.toolCallCount + (l.map (fun h => h.metrics.toolCallCount)).sum
          durationMs := max m.durationMs ((l.map (fun h => h.metrics.durationMs)).foldr max 0) } := by
  induction l with
  | nil =>
    intro m
    simp
  | cons h t ih =>
    intro m
    rw [List.foldl_cons, ih]
    simp [addMetrics, Nat.add_assoc, Nat.max_assoc]

theorem sumMetrics_eq (l : List Handoff) :
    sumMetrics l
      = { linesAdded := (l.map (fun h => h.metrics.linesAdded)).sum
          linesRemoved := (l.map (fun h => h.metrics.linesRemoved)).sum
          filesCreated := (l.map (fun h => h.metrics.filesCreated)).sum
          filesModified := (l.map (fun h => h.metrics.filesModified)).sum
          tokensUsed := (l.map (fun h => h.metrics.tokensUsed)).sum
          toolCallCount := (l.map (fun h => h.metrics.toolCallCount)).sum
          durationMs := (l.map (fun h => h.metrics.durationMs)).foldr max 0 } := by
  unfold sumMetrics
  rw [foldl_addMetrics_eq]
  simp [zeroMetrics]

/-- C7 counterexample: two subtask handoffs with mixed statuses `failed`
and `blocked` aggregate to `blocked`, not to `partial` as the claim's
"partial if the statuses are mixed" reading states. -/
theorem C7_aggregate_counterexample :
    (aggregateHandoffs (mkSimpleTask "p") [mkSimpleTask "s1", mkSimpleTask "s2"]
        [mkStatusHandoff "s1" .failed, mkStatusHandoff "s2" .blocked]).status
      = .blocked
    ∧ (mkStatusHandoff "s1" .failed).status ≠ (mkStatusHandoff "s2" .blocked).status
    ∧ ¬ (∀ h ∈ [mkStatusHandoff "s1" .failed, mkStatusHandoff "s2" .blocked],
          h.status = HandoffStatus.failed)
    ∧ HandoffStatus.blocked ≠ HandoffStatus.partialStatus := by
  exact ⟨rfl, by decide, by decide, by decide⟩

/-- C7 amended: for a non-empty list of subtask handoffs (one per subtask),
the aggregated status is `complete` iff every child is complete, `failed`
iff every child is failed, `partial` iff at least one but not all children
are complete, and `blocked` otherwise (no complete child and not all
failed); the aggregated metrics are the field-wise sums of the children's
metrics except `durationMs`, which is the maximum of the children's
durations. -/
theorem C7_aggregate_amended (parent : Task) (subtasks : List Task)
    (handoffs : List Handoff)
    (hlen : handoffs.length = subtasks.length) (hne : handoffs ≠ []) :
    ((aggregateHandoffs parent subtasks handoffs).status = .complete
        ↔ ∀ h ∈ handoffs, h.status = .complete)
    ∧ ((aggregateHandoffs parent subtasks handoffs).status = .failed
        ↔ ∀ h ∈ handoffs, h.status = .failed)
    ∧ ((aggregateHandoffs parent subtasks handoffs).status = .partialStatus
        ↔ ((∃ h ∈ handoffs, h.status = .complete)
            ∧ ¬ ∀ h ∈ handoffs, h.status = .complete))
    ∧ ((aggregateHandoffs parent subtasks handoffs).status = .blocked
        ↔ (¬ (∃ h ∈ handoffs, h.status = .complete)
            ∧ ¬ ∀ h ∈ handoffs, h.status = .failed))
    ∧ (aggregateHandoffs parent subtasks handoffs).metrics
        = { linesAdded := (handoffs.map (fun h => h.metrics.linesAdded)).sum
            linesRemoved := (handoffs.map (fun h => h.metrics.linesRemoved)).sum
            filesCreated := (handoffs.map (fun h => h.metrics.filesCreated)).sum
            filesModified := (handoffs.map (fun h => h.metrics.filesModified)).sum
            tokensUsed := (handoffs.map (fun h => h.metrics.tokensUsed)).sum
            toolCallCount := (handoffs.map (fun h => h.metrics.toolCallCount)).sum
            durationMs := (handoffs.map (fun h => h.metrics.durationMs)).foldr max 0 } := by
  have hcc : ((handoffs.filter (fun h => decide (h.status = .complete))).length
      = subtasks.length) ↔ ∀ h ∈ handoffs, h.status = .complete := by
    rw [← hlen, List.filter_length_eq_length]
    simp
  have hff : ((handoffs.filter (fun h => decide (h.status = .failed))).length
      = subtasks.length) ↔ ∀ h ∈ handoffs, h.status = .failed := by
    rw [← hlen, List.filter_length_eq_length]
    simp
  have hpos : (0 < (handoffs.filter (fun h => decide (h.status = .complete))).length)
      ↔ ∃ h ∈ handoffs, h.status = .complete := by
    rw [List.length_pos, Ne, List.filter_eq_nil_iff]
    push_neg
    simp
  have key : (aggregateHandoffs parent subtasks handoffs).status
      = (if ∀ h ∈ handoffs, h.status = .complete then HandoffStatus.complete
         else if ∀ h ∈ handoffs, h.status = .failed then HandoffStatus.failed
         else if ∃ h ∈ handoffs, h.status = .complete then HandoffStatus.partialStatus
         else HandoffStatus.blocked) := by
    rw [aggregateHandoffs_status]
    simp only [hcc, hff, hpos]
  have hnotboth : ¬((∀ h ∈ handoffs, h.status = .complete)
      ∧ (∀ h ∈ handoffs, h.status = .failed)) := by
    rintro ⟨hc, hf⟩
    cases handoffs with
    | nil => exact hne rfl
    | cons h t =>
      have h1 := hc h (List.mem_cons_self h t)
      have h2 := hf h (List.mem_cons_self h t)
      rw [h1] at h2
      cases h2
  have hex_imp : (∃ h ∈ handoffs, h.status = .complete)
      → ¬ ∀ h ∈ handoffs, h.status = .failed := by
    rintro ⟨h, hh, hcs⟩ hall
    have h2 := hall h hh
    rw [hcs] at h2
    cases h2
  refine ⟨?_, ?_, ?_, ?_, by rw [aggregateHandoffs_metrics, sumMetrics_eq]⟩ <;> rw [key] <;>
    clear key
  all_goals {
    by_cases d1 : ∀ h ∈ handoffs, h.status = .complete
    · have d2 : ¬ ∀ h ∈ handoffs, h.status = .failed := fun hf => hnotboth ⟨d1, hf⟩
      have d3 : ∃ h ∈ handoffs, h.status = .complete := by
        cases handoffs with
        | nil => exact absurd rfl hne
        | cons h t => exact ⟨h, List.mem_cons_self h t, d1 h (List.mem_cons_self h t)⟩
      simp [eq_true d1, eq_false d2, eq_true d3]
    · by_cases d2 : ∀ h ∈ handoffs, h.status = .failed
      · have d3 : ¬ ∃ h ∈ handoffs, h.status = .complete := fun he => hex_imp he d2
        simp [eq_false d1, eq_true d2, eq_false d3]
      · by_cases d3 : ∃ h ∈ handoffs, h.status = .complete
        · simp [eq_false d1, eq_false d2, eq_true d3]
        · simp [eq_false d1, eq_false d2, eq_false d3]
  }

/-- Witness for C7 (amended): one complete and one failed child aggregate
to `partial`. -/
theorem C7_aggregate_amended_witness :
    (aggregateHandoffs (mkSimpleTask "p") [mkSimpleTask "s1", mkSimpleTask "s2"]
        [mkStatusHandoff "s1" .complete, mkStatusHandoff "s2" .failed]).status
      = .partialStatus := by
  have h := C7_aggregate_amended (mkSimpleTask "p") [mkSimpleTask "s1", mkSimpleTask "s2"]
    [mkStatusHandoff "s1" .complete, mkStatusHandoff "s2" .failed] rfl (by decide)
  exact h.2.2.1.mpr ⟨⟨mkStatusHandoff "s1" .complete, by decide, rfl⟩, by decide⟩

/-- C8 counterexample: a task whose status is `assigned` is not beyond
pending/assigned, yet the post-limiter re-check skips it — the code skips
everything whose status is not exactly `pending`. -/
theorem C8_postlimiter_counterexample :
    postLimiterSkips (some cexAssignedTask) = true
    ∧ beyondPendingAssigned cexAssignedTask.status = false := by
  exact ⟨rfl, rfl⟩

/-- C8 amended: after acquiring a semaphore slot the dispatcher re-checks
the task in the queue and skips exactly when the task exists with a status
other than `pending` (so `assigned` is also skipped; a missing task
proceeds); on a skip the slot is released and the task leaves the active
set, and on a proceed the gate is untouched. -/
theorem C8_postlimiter_amended (cur : Option Task) (g : DispatchGate) (taskId : String) :
    (postLimiterSkips cur = true ↔ ∃ t, cur = some t ∧ t.status ≠ .pending)
    ∧ (postLimiterCheck g taskId cur).1 = postLimiterSkips cur
    ∧ (postLimiterSkips cur = true →
        (postLimiterCheck g taskId cur).2.limiterActive = g.limiterActive - 1)
    ∧ (postLimiterSkips cur = false → (postLimiterCheck g taskId cur).2 = g) := by
  have hiff : postLimiterSkips cur = true ↔ ∃ t, cur = some t ∧ t.status ≠ .pending := by
    cases cur with
    | none => simp [postLimiterSkips]
    | some t => simp [postLimiterSkips]
  by_cases h : postLimiterSkips cur = true
  · refine ⟨hiff, by simp [postLimiterCheck, h], fun _ => by simp [postLimiterCheck, h], ?_⟩
    intro hf
    rw [h] at hf
    cases hf
  · rw [Bool.not_eq_true] at h
    refine ⟨hiff, by simp [postLimiterCheck, h], ?_, fun _ => by simp [postLimiterCheck, h]⟩
    intro ht
    rw [h] at ht
    cases ht

/-- Witness for C8 (amended): re-checking an `assigned` task skips it and
frees the slot. -/
theorem C8_postlimiter_amended_witness :
    (postLimiterCheck ⟨3, ["t1"]⟩ "t1" (some cexAssignedTask)).2.limiterActive = 2
    ∧ (postLimiterCheck ⟨3, ["t1"]⟩ "t1" (some cexAssignedTask)).1 = true := by
  have h := C8_postlimiter_amended (some cexAssignedTask) ⟨3, ["t1"]⟩ "t1"
  refine ⟨h.2.2.1 rfl, ?_⟩
  rw [h.2.1]
  rfl

theorem autoRedispatches_eq_zero (queueMax : Nat) (t : Task)
    (statuses : List HandoffStatus) (hrc : 1 ≤ t.retryCount) :
    autoRedispatches queueMax t statuses = 0 := by
  cases statuses with
  | nil => rfl
  | cons h rest =>
    unfold autoRedispatches
    have hg : autoRetryGuard h t.retryCount = false := by
      unfold autoRetryGuard MAX_TASK_RETRIES
      have hd : decide (t.retryCount < 1) = false := by
        rw [decide_eq_false_iff_not]
        omega
      rw [hd, Bool.and_false]
    rw [hg]
    simp

/-- C10: the planner's automatic retry budget is exactly one —
`MAX_TASK_RETRIES = 1`; the auto-retry guard passes exactly for a failed or
blocked handoff of a task whose retry count is still 0; and along any run
of terminal handoffs for one task, the planner re-dispatches it
automatically at most once, so a task that fails again after its single
auto-retry is never auto-dispatched a third time. -/
theorem C10_auto_retry_budget :
    MAX_TASK_RETRIES = 1
    ∧ (∀ (h : HandoffStatus) (rc : Nat),
        autoRetryGuard h rc = true ↔ ((h = .failed ∨ h = .blocked) ∧ rc = 0))
    ∧ (∀ (queueMax : Nat) (t : Task) (statuses : List HandoffStatus),
        autoRedispatches queueMax t statuses ≤ 1) := by
  refine ⟨rfl, ?_, ?_⟩
  · intro h rc
    unfold autoRetryGuard MAX_TASK_RETRIES
    simp [Nat.lt_one_iff]
  · intro queueMax t statuses
    cases statuses with
    | nil => exact Nat.zero_le 1
    | cons h rest =>
      unfold autoRedispatches
      split
      · cases hr : retryTask queueMax t with
        | none => simp
        | some t' =>
          have ht' : t'.retryCount = t.retryCount + 1 := by
            unfold retryTask at hr
            split at hr
            · injection hr with h1
              rw [← h1]
            · cases hr
          have hz := autoRedispatches_eq_zero queueMax { t' with status := .failed } rest
            (by simp only [ht']; omega)
          simp [hz]
      · simp

theorem mergeBranchStep_queue_success (s : MergeQueueState) (b msg : String) (now : Int) :
    (s.mergeBranchStep b (.success msg) now).2.queue = s.queue := rfl

theorem mergeBranchStep_queue_failed (s : MergeQueueState) (b msg : String) (now : Int) :
    (s.mergeBranchStep b (.failed msg) now).2.queue = s.queue := rfl

theorem processQueueLog_noConflict (outcomes : Nat → MergeOutcome) (times : Nat → Int)
    (hnc : ∀ j files, outcomes j ≠ .conflicted files) :
    ∀ (fuel k : Nat) (s : MergeQueueState),
      (processQueueLog outcomes times fuel k s).1.map (fun q => q.1)
        = s.queue.take fuel := by
  intro fuel
  induction fuel with
  | zero =>
    intro k s
    simp [processQueueLog]
  | succ n ih =>
    intro k s
    unfold processQueueLog
    cases hq : s.queue with
    | nil => simp
    | cons e rest =>
      cases ho : outcomes k with
      | conflicted files => exact absurd ho (hnc k files)
      | success msg =>
        simp only [ho, MergeQueueState.mergeBranchStep, List.map_cons, List.take_succ_cons]
        rw [ih]
      | failed msg =>
        simp only [ho, MergeQueueState.mergeBranchStep, List.map_cons, List.take_succ_cons]
        rw [ih]

/-- C9 counterexample: a drain that hits a conflict retry does not dequeue
in sorted `(priority, enqueuedAt)` order — the conflicting branch is
re-enqueued at priority 1 with a fresh timestamp and is dequeued again
mid-drain, so the dequeue sequence `(5,10), (1,100), (5,20)` is not
sorted. -/
theorem C9_drain_order_counterexample :
    ¬ ((processQueueLog cexDrainOutcomes cexDrainTimes 10 0 cexDrainState).1.map
        (fun q => q.1)).Pairwise (fun a c => entryLE a c = true) := by
  decide

/-- C9 amended: the queue list is at every moment sorted by ascending
`(priority, enqueuedAt)` — sortedness is preserved by enqueue and dequeue,
so each dequeue removes a least entry of the current queue — and a drain
during which no merge attempt conflicts dequeues exactly the sorted queue
contents, in sorted order; duplicate enqueues and enqueues of
already-merged branches leave the queue (and whole state) unchanged. A
conflict retry, however, re-enqueues the branch at priority 1 with a fresh
timestamp, so the dequeue sequence of a drain containing a conflict need
not be globally sorted. -/
theorem C9_queue_order_amended (s : MergeQueueState) (b : String) (p now : Int)
    (outcomes : Nat → MergeOutcome) (times : Nat → Int) (fuel k : Nat) :
    (s.queue.Pairwise (fun a c => entryLE a c = true) →
        (s.enqueue b p now).queue.Pairwise (fun a c => entryLE a c = true))
    ∧ (s.queue.Pairwise (fun a c => entryLE a c = true) →
        s.dequeue.2.queue.Pairwise (fun a c => entryLE a c = true))
    ∧ (s.queue.any (fun e => e.branch == b) = true → s.enqueue b p now = s)
    ∧ (s.merged.contains b = true → s.enqueue b p now = s)
    ∧ (s.queue.Pairwise (fun a c => entryLE a c = true) →
        (∀ j files, outcomes j ≠ .conflicted files) →
        ((processQueueLog outcomes times fuel k s).1.map (fun q => q.1)).Pairwise
          (fun a c => entryLE a c = true)) := by
  refine ⟨?_, ?_, enqueue_eq_of_inQueue s b p now, enqueue_eq_of_merged s b p now, ?_⟩
  · intro hs
    unfold MergeQueueState.enqueue
    split
    · exact hs
    split
    · exact hs
    · exact sortEntries_pairwise _
  · intro hs
    unfold MergeQueueState.dequeue
    cases hq : s.queue with
    | nil =>
      simp only [hq]
      exact List.Pairwise.nil
    | cons e rest =>
      simp only [hq]
      rw [hq] at hs
      exact (List.pairwise_cons.mp hs).2
  · intro hs hnc
    rw [processQueueLog_noConflict outcomes times hnc fuel k s]
    exact List.Pairwise.sublist (List.take_sublist _ _) hs

/-- Witness for C9 (amended): a conflict-free drain of the concrete
two-entry queue dequeues in sorted order, and re-enqueueing a branch
already in the queue changes nothing. -/
theorem C9_queue_order_amended_witness :
    ((processQueueLog cexSuccOutcomes cexDrainTimes 10 0 cexDrainState).1.map
        (fun q => q.1)).Pairwise (fun a c => entryLE a c = true)
    ∧ cexDrainState.enqueue "a" 3 7 = cexDrainState := by
  have h := C9_queue_order_amended cexDrainState "a" 3 7 cexSuccOutcomes cexDrainTimes 10 0
  refine ⟨h.2.2.2.2 (by decide) ?_, h.2.2.1 (by decide)⟩
  intro j files heq
  simp [cexSuccOutcomes] at heq

end AgentSwarm
